import Mathlib

/-
Verification development for the foodpanda scraper (src/app.py).

The HTML-parsing/query primitive (BeautifulSoup) is an external
collaborator; following the spec's interface description, a parsed markup
snapshot is modelled as a tree node carrying its stripped text, its
attribute table, its script string (for script tags), a table mapping each
CSS selector string to the list of elements that selector returns on this
node, and its list of direct children (BeautifulSoup `.contents`).
-/

inductive Element : Type where
  | mk : String → List (String × String) → Option String →
      List (String × List Element) → List Element → Element

/-- Text of the node, as returned by get_text (the scraper always reads
text through this accessor). -/
def Element.text : Element → String
  | .mk t _ _ _ _ => t

/-- Attribute lookup, modelling `tag.get(name)` (none when absent). -/
def Element.attr : Element → String → Option String
  | .mk _ as _ _ _, n => (as.find? (fun p => p.1 = n)).map (fun p => p.2)

/-- Script-tag string content, modelling `script.string` (none when absent). -/
def Element.scriptString : Element → Option String
  | .mk _ _ ss _ _ => ss

/-- CSS query, modelling `node.select(selector)`: the snapshot's
precomputed answer for this selector, empty when the selector matches
nothing. -/
def Element.selAll : Element → String → List Element
  | .mk _ _ _ tab _, s => ((tab.find? (fun p => p.1 = s)).map (fun p => p.2)).getD []

/-- CSS query for one element, modelling `node.select_one(selector)`. -/
def Element.selOne (e : Element) (s : String) : Option Element :=
  (e.selAll s).head?

/-- Direct children of the node, modelling BeautifulSoup `.contents`. -/
def Element.contents : Element → List Element
  | .mk _ _ _ _ cs => cs

/-- Model of `str.startswith` used by the urljoin model below. -/
def strStartsWith (s p : String) : Bool :=
  p.toList.isPrefixOf s.toList

/-- Model of `urllib.parse.urljoin` for the URL shapes this scraper
produces: an absolute URL is returned unchanged, a root-relative path is
appended to the bare-origin base URL. -/
def urljoin (base url : String) : String :=
  if strStartsWith url "http://" || strStartsWith url "https://" then url
  else base ++ url

/-- Model of Python `str.strip()` (drop leading and trailing whitespace). -/
def pyStrip (s : String) : String :=
  String.mk (((s.toList.dropWhile Char.isWhitespace).reverse.dropWhile
    Char.isWhitespace).reverse)

/-- Helper for the category-label cleanup: `l` is the REVERSED character
list; drops one trailing `(digits)` group when present, mirroring
`re.sub(..., '', text)` with the pattern anchored at the end. -/
def dropParenCount (l : List Char) : List Char :=
  match l with
  | ')' :: rest =>
    match rest.drop (rest.takeWhile Char.isDigit).length with
    | '(' :: rest2 =>
      if (rest.takeWhile Char.isDigit).isEmpty then l else rest2
    | _ => l
  | _ => l

/-- Category-label cleanup from _get_menu: strip a trailing parenthesized
count and surrounding whitespace ("Appetizers (5)" becomes "Appetizers"). -/
def stripTagCount (s : String) : String :=
  pyStrip (String.mk (dropParenCount s.toList.reverse).reverse)

/-- First contiguous digit run of a string, modelling
`re.search(r'\d+', s)` (price cleanup in _get_menu_items). -/
def firstDigitRun (s : String) : Option String :=
  match s.toList.dropWhile (fun c => !c.isDigit) with
  | [] => none
  | c :: rest => some (String.mk ((c :: rest).takeWhile Char.isDigit))

/-- Drops a single leading quote character (' or ", char codes 39/34),
modelling the optional-quote group of the background-image pattern. -/
def stripLeadQuote : List Char → List Char
  | [] => []
  | q :: rest => if q.toNat = 39 || q.toNat = 34 then rest else q :: rest

/-- Lazy capture of the background-image pattern: consume characters until
a `)` or a quote directly followed by `)`, returning the consumed part
(the accumulated prefix is kept reversed). -/
def lazyCapture : List Char → List Char → Option (List Char)
  | _, [] => none
  | acc, c :: rest =>
    if c = ')' then some acc.reverse
    else if (c.toNat = 39 || c.toNat = 34) && rest.head? = some ')' then
      some acc.reverse
    else lazyCapture (c :: acc) rest

/-- Attempts the background-image pattern at the head of the list,
modelling one anchor position of
`re.search(r'background-image:\s*url\([\'"]?(.*?)[\'"]?\)', style)`. -/
def bgMatchAt (l : List Char) : Option (List Char) :=
  if "background-image:".toList.isPrefixOf l then
    match (l.drop "background-image:".toList.length).dropWhile Char.isWhitespace with
    | r1 =>
      if "url(".toList.isPrefixOf r1 then
        lazyCapture [] (stripLeadQuote (r1.drop "url(".toList.length))
      else none
  else none

/-- Searches the style text for the background-image pattern at every
start position, leftmost first (the search part of `re.search`). -/
def bgSearch : List Char → Option (List Char)
  | [] => none
  | c :: rest =>
    match bgMatchAt (c :: rest) with
    | some u => some u
    | none => bgSearch rest

/-- Image-URL extraction from an inline style declaration
(_get_menu_items). -/
def bgImageUrl (style : String) : Option String :=
  (bgSearch style.toList).map String.mk

/-- Character class `[-\d.]` of the coordinate patterns in
_get_latitude/_get_longitude. -/
def numChar (c : Char) : Bool :=
  c.isDigit || c = '-' || c = '.'

/-- Searches text for `pat` immediately followed by optional whitespace
and a nonempty `[-\d.]+` run, modelling
`re.search(r'"latitude":\s*([-\d.]+)', s)` (and the longitude variant). -/
def keyNumSearch (pat : List Char) : List Char → Option (List Char)
  | [] => none
  | c :: rest =>
    if pat.isPrefixOf (c :: rest) then
      match ((c :: rest).drop pat.length).dropWhile Char.isWhitespace with
      | r =>
        if (r.takeWhile numChar).isEmpty then keyNumSearch pat rest
        else some (r.takeWhile numChar)
    else keyNumSearch pat rest

/-- Local-part character class of the email pattern in _get_email. -/
def localChar (c : Char) : Bool :=
  c.isAlphanum || c = '.' || c = '_' || c = '%' || c = '+' || c = '-'

/-- Domain character class of the email pattern in _get_email. -/
def domainChar (c : Char) : Bool :=
  c.isAlphanum || c = '.' || c = '-'

/-- Backtracking split of the greedy domain run: the last dot position
(at index at least one) followed by at least two letters, as the pattern
`[a-zA-Z0-9.-]+\.[a-zA-Z]{2,}` selects under greedy matching. -/
def domSplit (dom : List Char) : Option (List Char × List Char) :=
  (List.range dom.length).reverse.findSome? (fun k =>
    if 1 ≤ k then
      match dom.get? k with
      | some c =>
        if c = '.' then
          if 2 ≤ ((dom.drop (k + 1)).takeWhile Char.isAlpha).length then
            some (dom.take k, (dom.drop (k + 1)).takeWhile Char.isAlpha)
          else none
        else none
      | none => none
    else none)

/-- Attempts the email pattern at the head of the list: greedy local part,
an `@`, then the domain split. -/
def emailAt (l : List Char) : Option (List Char) :=
  match l.takeWhile localChar with
  | [] => none
  | lc :: loc =>
    match l.drop (lc :: loc).length with
    | '@' :: r2 =>
      match domSplit (r2.takeWhile domainChar) with
      | some (pre, suf) => some ((lc :: loc) ++ '@' :: (pre ++ '.' :: suf))
      | none => none
    | _ => none

/-- Leftmost search of the email pattern
`[a-zA-Z0-9._%+-]+@[a-zA-Z0-9.-]+\.[a-zA-Z]{2,}` over free text
(_get_email). -/
def emailSearch : List Char → Option (List Char)
  | [] => none
  | c :: rest =>
    match emailAt (c :: rest) with
    | some e => some e
    | none => emailSearch rest

/-- Model of Python `str.replace(pat, '')`: removes every occurrence of a
nonempty pattern. -/
def removeAll (pat : List Char) (l : List Char) : List Char :=
  if h : (pat.isPrefixOf l && !pat.isEmpty) = true then
    removeAll pat (l.drop pat.length)
  else
    match l with
    | [] => []
    | c :: rest => c :: removeAll pat rest
termination_by l.length
decreasing_by
  · simp only [Bool.and_eq_true, Bool.not_eq_true'] at h
    have hp := List.isPrefixOf_iff_prefix.mp h.1
    have hle := hp.length_le
    have hpos : 0 < pat.length := by
      cases pat with
      | nil => simp at h
      | cons a as => simp
    simp only [List.length_drop]
    omega
  · simp

/-- Driver-side interactions of a detail-page visit. The browser driver is
an external collaborator; the spec treats its scroll/click side effects as
producing a refreshed snapshot. `moreInfoSoup` is the snapshot after the
"more info" click of _get_address succeeded (none when the click failed,
in which case the code keeps the original snapshot); `menuScrollSoup` is
the snapshot after the incremental scroll loop of _get_menu (none when
scrolling failed). -/
structure Session where
  moreInfoSoup : Option Element
  menuScrollSoup : Option Element

/-- Embedding of _get_text: text of the first element matched by the
selector, or the default empty string. -/
def getText (soup : Element) (sel : String) : String :=
  match Element.selOne soup sel with
  | some e => Element.text e
  | none => ""

/-- Source attribute of the first element matched by the selector, empty
when the element or the attribute is absent (helper for _get_image). -/
def imgSrc (soup : Element) (sel : String) : String :=
  match Element.selOne soup sel with
  | some img => (Element.attr img "src").getD ""
  | none => ""

/-- Embedding of _get_image: three selector fallbacks, each taken only
when it yields a nonempty src (Python truthiness of `tag.get('src')`). -/
def getImage (soup : Element) : String :=
  if imgSrc soup "img.vendor-logo__image" ≠ "" then
    imgSrc soup "img.vendor-logo__image"
  else if imgSrc soup "img[data-testid='restaurant-header-image']" ≠ "" then
    imgSrc soup "img[data-testid='restaurant-header-image']"
  else if imgSrc soup "img.restaurant-image" ≠ "" then
    imgSrc soup "img.restaurant-image"
  else ""

/-- Embedding of _get_address: the snapshot refreshed by the more-info
click when that click succeeded (otherwise the original snapshot), then
the single address selector, defaulting to empty. -/
def getAddress (sess : Session) (soup : Element) : String :=
  match Element.selOne (sess.moreInfoSoup.getD soup)
      "div[data-testid='vendor-info-modal-vendor-address'] h1" with
  | some e => Element.text e
  | none => ""

/-- Embedding of _get_cuisines: collect the span texts under the
characteristics list, skipping empties and de-duplicating in first-seen
order. -/
def getCuisines (soup : Element) : List String :=
  (Element.selAll soup "ul.main-info__characteristics span").foldl
    (fun acc e =>
      if Element.text e ≠ "" ∧ Element.text e ∉ acc then acc ++ [Element.text e]
      else acc)
    []

/-- Scans script tags for the first one whose string content matches the
given coordinate pattern (_get_latitude/_get_longitude fallback). -/
def scriptsNum (pat : List Char) : List Element → String
  | [] => ""
  | sc :: rest =>
    match Element.scriptString sc with
    | some s =>
      match keyNumSearch pat s.toList with
      | some num => String.mk num
      | none => scriptsNum pat rest
    | none => scriptsNum pat rest

/-- Embedding of _get_latitude: structured metadata first (taken only when
nonempty, Python truthiness), then script-content pattern match, then
empty. -/
def getLatitude (soup : Element) : String :=
  match Element.selOne soup "meta[property='place:location:latitude']" with
  | some m =>
    if (Element.attr m "content").getD "" ≠ "" then (Element.attr m "content").getD ""
    else scriptsNum "\"latitude\":".toList (Element.selAll soup "script")
  | none => scriptsNum "\"latitude\":".toList (Element.selAll soup "script")

/-- Embedding of _get_longitude, symmetric to _get_latitude. -/
def getLongitude (soup : Element) : String :=
  match Element.selOne soup "meta[property='place:location:longitude']" with
  | some m =>
    if (Element.attr m "content").getD "" ≠ "" then (Element.attr m "content").getD ""
    else scriptsNum "\"longitude\":".toList (Element.selAll soup "script")
  | none => scriptsNum "\"longitude\":".toList (Element.selAll soup "script")

/-- Embedding of _get_email: leftmost regex match over the page's free
text, then a mailto link with its scheme removed, then empty. -/
def getEmail (soup : Element) : String :=
  match emailSearch (Element.text soup).toList with
  | some e => String.mk e
  | none =>
    match Element.selOne soup "a[href^='mailto:']" with
    | some a =>
      match Element.attr a "href" with
      | some h => if h ≠ "" then String.mk (removeAll "mailto:".toList h.toList) else ""
      | none => ""
    | none => ""

/-- Embedding of _get_postal_code: first 5-6 digit run with word
boundaries inside the extracted address, else empty. The regex
`\b\d{5,6}\b` accepts a maximal digit run of length five or six whose
neighbours are not word characters. -/
def isWordChar (c : Char) : Bool :=
  c.isAlphanum || c = '_'

/-- Boundary test for the postal-code pattern: no character, or a
non-word character. -/
def boundaryOk : Option Char → Bool
  | none => true
  | some c => !isWordChar c

/-- Leftmost `\b\d{5,6}\b` match: `prev` is the character before the
current position. -/
def postalSearch (prev : Option Char) : List Char → Option (List Char)
  | [] => none
  | c :: rest =>
    if c.isDigit && boundaryOk prev then
      if ((c :: rest).takeWhile Char.isDigit).length = 5 ∨
          ((c :: rest).takeWhile Char.isDigit).length = 6 then
        if boundaryOk ((rest.dropWhile Char.isDigit).head?) then
          some ((c :: rest).takeWhile Char.isDigit)
        else postalSearch (some c) (rest.dropWhile Char.isDigit)
      else postalSearch (some c) (rest.dropWhile Char.isDigit)
    else postalSearch (some c) rest
termination_by l => l.length
decreasing_by
  · have := (List.dropWhile_sublist (l := rest) (p := Char.isDigit)).length_le
    simp only [List.length_cons]
    omega
  · have := (List.dropWhile_sublist (l := rest) (p := Char.isDigit)).length_le
    simp only [List.length_cons]
    omega
  · simp

/-- Embedding of _get_postal_code over the address text. -/
def getPostalCode (sess : Session) (soup : Element) : String :=
  match postalSearch none (getAddress sess soup).toList with
  | some run => String.mk run
  | none => ""

/-- One menu item as emitted by _get_menu_items. -/
structure MenuItem where
  name : String
  description : String
  price : String
  image : String
deriving DecidableEq, Repr

/-- One menu category as emitted by _get_menu. -/
structure MenuCategory where
  category : String
  items : List MenuItem
deriving DecidableEq, Repr

/-- Name lookup of one item container (_get_menu_items). -/
def itemName (li : Element) : String :=
  getText li "h3 span[data-testid='menu-product-name']"

/-- Field assembly for one item container (_get_menu_items): description
and price selectors, digit-run price cleanup, background-image style
parse guarded by Python truthiness of the style attribute. -/
def itemOf (li : Element) : MenuItem :=
  { name := itemName li
    description := getText li "p.product-tile__description"
    price :=
      if getText li "p[data-testid='menu-product-price']" = "" then ""
      else (firstDigitRun (getText li "p[data-testid='menu-product-price']")).getD ""
    image :=
      match Element.selOne li "picture.product-tile__image div" with
      | some d =>
        match Element.attr d "style" with
        | some st => if st = "" then "" else (bgImageUrl st).getD ""
        | none => ""
      | none => "" }

/-- Loop step over the li elements of one dish grid: an item is appended
only when its name is nonempty (`if name:` in the source). -/
def liStep (acc : List MenuItem) (li : Element) : List MenuItem :=
  if itemName li = "" then acc else acc ++ [itemOf li]

/-- Loop step over the dish grids found in one category container. -/
def gridStep (acc : List MenuItem) (grid : Element) : List MenuItem :=
  (Element.selAll grid "li").foldl liStep acc

/-- Embedding of _get_menu_items: all li items of all dish grids of the
container, in document order, named items only. The body performs no
fallible operation, so its catch-all handler is unreachable. -/
def getMenuItems (container : Element) : List MenuItem :=
  (Element.selAll container "ul.dish-list-grid").foldl gridStep []

/-- Category-tab selector of _get_menu. -/
def catSelector : String := "ul.bds-c-tabs__list button span"

/-- Indexed loop of _get_menu over the category tabs: the i-th tab is
paired with the i-th child of the menu root (`contents[i]`); a missing
menu root skips the tab, an out-of-range index raises (IndexError), and a
category is appended only when its item list is nonempty. -/
def menuLoop (soup2 : Element) :
    List Element → Nat → List MenuCategory → Except String (List MenuCategory)
  | [], _, acc => Except.ok acc
  | cat :: rest, i, acc =>
    match Element.selOne soup2 "div.menu" with
    | none => menuLoop soup2 rest (i + 1) acc
    | some root =>
      match (Element.contents root).get? i with
      | none => Except.error "IndexError"
      | some child =>
        menuLoop soup2 rest (i + 1)
          (if (getMenuItems child).isEmpty then acc
           else acc ++ [⟨stripTagCount (Element.text cat), getMenuItems child⟩])

/-- Body of _get_menu inside its try block: the incremental-scroll
interaction is driver-external and surfaces as the refreshed snapshot in
the session (original snapshot kept when scrolling failed), then the
indexed category loop runs. The only fallible operation is the
`contents[i]` indexing. -/
def getMenuBody (sess : Session) (soup : Element) :
    Except String (List MenuCategory) :=
  menuLoop (sess.menuScrollSoup.getD soup)
    (Element.selAll (sess.menuScrollSoup.getD soup) catSelector) 0 []

/-- Embedding of _get_menu: the body's result, with any internal failure
converted to the empty menu by the catch-all handler. -/
def getMenu (sess : Session) (soup : Element) : List MenuCategory :=
  match getMenuBody sess soup with
  | Except.ok m => m
  | Except.error _ => []

/-- The extracted entity record assembled by extract_restaurant_details on
its success path (after navigation, challenge gate and heading wait, which
are driver-external). -/
structure Record where
  name : String
  image : String
  state : String
  city : String
  country_code : String
  postal_code : String
  email : String
  cuisines : List String
  latitude : String
  longitude : String
  price_range : String
  phone : String
  menu : List MenuCategory
  address : String
deriving DecidableEq, Repr

/-- Embedding of the record assembly in extract_restaurant_details:
field extractors for name, image, cuisines, coordinates, menu and
address; literal constants for state, city, country code, postal code,
price range, email and phone. -/
def extractRestaurantDetails (sess : Session) (soup : Element) : Record :=
  { name := getText soup "h1"
    image := getImage soup
    state := "punjab"
    city := "Lahore"
    country_code := "PK"
    postal_code := "54000"
    email := ""
    cuisines := getCuisines soup
    latitude := getLatitude soup
    longitude := getLongitude soup
    price_range := "$$$"
    phone := ""
    menu := getMenu sess soup
    address := getAddress sess soup }

/-- One entry of the accumulated sequence `self.data`: either a record
with the originating URL that scrape() attaches, or the error placeholder
dict produced when a detail visit fails. -/
inductive Entry where
  | record : Record → String → Entry
  | failure : String → String → Entry
deriving DecidableEq, Repr

/-- One flattened tabular row of _save_data: the entity-level fields
(cuisines joined by a comma) plus the five menu-item columns, which are
absent (none) on the row emitted for a menu-less entity. -/
structure Row where
  name : String
  image : String
  state : String
  city : String
  country_code : String
  postal_code : String
  email : String
  cuisines : String
  latitude : String
  longitude : String
  price_range : String
  phone : String
  address : String
  url : String
  menu_category : Option String
  menu_item_name : Option String
  menu_item_description : Option String
  menu_item_price : Option String
  menu_item_image : Option String
deriving DecidableEq, Repr

/-- The basic_info dict of _save_data: every record field except the menu,
with the cuisine list joined by ", ". -/
def basicOf (r : Record) (url : String) : Row :=
  { name := r.name, image := r.image, state := r.state, city := r.city
    country_code := r.country_code, postal_code := r.postal_code
    email := r.email, cuisines := String.intercalate ", " r.cuisines
    latitude := r.latitude, longitude := r.longitude
    price_range := r.price_range, phone := r.phone, address := r.address
    url := url, menu_category := none, menu_item_name := none
    menu_item_description := none, menu_item_price := none
    menu_item_image := none }

/-- One item row of _save_data: a copy of basic_info with the five
menu-item columns filled. -/
def itemRow (b : Row) (cat : String) (it : MenuItem) : Row :=
  { b with
    menu_category := some cat
    menu_item_name := some it.name
    menu_item_description := some it.description
    menu_item_price := some it.price
    menu_item_image := some it.image }

/-- The rows one entry contributes to the flattened output: none for an
error placeholder, one menu-less row for an empty menu, and one row per
item of each category otherwise (document order). -/
def entityRows : Entry → List Row
  | .failure _ _ => []
  | .record r url =>
    if r.menu.isEmpty then [basicOf r url]
    else (r.menu.map (fun cat =>
      cat.items.map (itemRow (basicOf r url) cat.category))).flatten

/-- Accumulation step of the flattening loop in _save_data, appending the
rows of one entry to the running list. -/
def saveStep (acc : List Row) (e : Entry) : List Row :=
  match e with
  | .failure _ _ => acc
  | .record r url =>
    if r.menu.isEmpty then acc ++ [basicOf r url]
    else r.menu.foldl
      (fun a cat => cat.items.foldl
        (fun a2 it => a2 ++ [itemRow (basicOf r url) cat.category it]) a)
      acc

/-- Embedding of the flattening loop of _save_data over the accumulated
sequence. -/
def saveRows (data : List Entry) : List Row :=
  data.foldl saveStep []

/-- The structured (JSON) representation written by _save_data: the
accumulated sequence itself (`json.dump(self.data, ...)`). -/
def jsonOut (data : List Entry) : List Entry := data

/-- Abstract contents of the two output files. -/
structure FileState where
  jsonFile : List Entry
  csvFile : List Row
deriving DecidableEq, Repr

/-- Embedding of one _save_data flush over the previous file state: the
JSON file is reopened with mode "w" and fully rewritten; the CSV file is
rewritten by `df.to_csv` only when the flattened row list is nonempty
(`if flattened_data:`), otherwise it keeps its previous contents. -/
def flushFiles (data : List Entry) (fs : FileState) : FileState :=
  { jsonFile := jsonOut data
    csvFile := if (saveRows data).isEmpty then fs.csvFile else saveRows data }

/-- The four fallback selector strategies for restaurant cards in
get_restaurant_urls. -/
def restaurantSelectors : List String :=
  ["a[data-testid='restaurant-card']", "a[href*='/restaurant/']",
   "a[class*='restaurant']", "a[class*='vendor']"]

/-- Card-collection loop of get_restaurant_urls: for each card with a
truthy href whose RAW href string is not already in the accumulated list,
append the JOINED url. (The membership test compares the raw href against
already-appended joined urls, exactly as the source does.) -/
def collectCards (base : String) (cards : List Element) (acc : List String) :
    List String :=
  cards.foldl
    (fun a card =>
      match Element.attr card "href" with
      | some url => if url ≠ "" ∧ url ∉ a then a ++ [urljoin base url] else a
      | none => a)
    acc

/-- Initial extraction phase of get_restaurant_urls: try each selector
strategy in order and keep the first whose collected urls are nonempty
(a selector timeout behaves as an empty result). -/
def initialUrlsGo (base : String) (page : Element) : List String → List String
  | [] => []
  | sel :: rest =>
    if (collectCards base (Element.selAll page sel) []).isEmpty then
      initialUrlsGo base page rest
    else collectCards base (Element.selAll page sel) []

/-- Initial extraction over the fixed selector list. -/
def initialUrls (base : String) (page : Element) : List String :=
  initialUrlsGo base page restaurantSelectors

/-- In-loop extraction of get_restaurant_urls: every selector strategy is
applied, accumulating into the shared url list. -/
def extractAllSelectors (base : String) (page : Element) (acc : List String) :
    List String :=
  restaurantSelectors.foldl (fun a sel => collectCards base (Element.selAll page sel) a) acc

/-- State of the scroll loop in get_restaurant_urls: collected urls,
prev_count, scroll_attempts, and the number of scrolls performed so far
(which snapshot of the feed the next extraction reads). -/
structure ScrollState where
  urls : List String
  prevCount : Nat
  attempts : Nat
  page : Nat
deriving Repr

/-- While-condition of the scroll loop:
`(limit is None or len(urls) < limit) and scroll_attempts < 20`. -/
def loopCond (limit : Option Nat) (s : ScrollState) : Bool :=
  (match limit with
   | none => true
   | some l => decide (s.urls.length < l)) && decide (s.attempts < 20)

/-- One iteration of the scroll loop body: extract from the current feed
snapshot, update the consecutive no-growth counter and prev_count, scroll
(advance the feed index), then break with the truncated list when a
truthy limit has been reached (`if limit and len(urls) >= limit`). The
boolean marks the break. -/
def loopIter (base : String) (feed : Nat → Element) (limit : Option Nat)
    (s : ScrollState) : ScrollState × Bool :=
  match extractAllSelectors base (feed s.page) s.urls with
  | urls =>
    match ({ urls := urls
             prevCount := urls.length
             attempts := if urls.length = s.prevCount then s.attempts + 1 else 0
             page := s.page + 1 } : ScrollState) with
    | st =>
      match limit with
      | some l =>
        if 0 < l ∧ l ≤ urls.length then ({ st with urls := urls.take l }, true)
        else (st, false)
      | none => (st, false)

/-- The scroll loop of get_restaurant_urls. The Python loop is unbounded;
`fuel` counts loop iterations so that termination and non-termination can
be stated per iteration count: exhausted fuel returns the state of a loop
that is still running. -/
def scrollLoop (base : String) (feed : Nat → Element) (limit : Option Nat) :
    Nat → ScrollState → ScrollState
  | 0, s => s
  | fuel + 1, s =>
    if loopCond limit s then
      match loopIter base feed limit s with
      | (s2, true) => s2
      | (s2, false) => scrollLoop base feed limit fuel s2
    else s

/-- Embedding of get_restaurant_urls over a feed of listing-page
snapshots (`feed n` is the page after n scroll actions): initial
extraction, early return when it found nothing, then the scroll loop
starting before any scroll with prev_count and scroll_attempts zero. -/
def getRestaurantUrls (base : String) (feed : Nat → Element)
    (limit : Option Nat) (fuel : Nat) : List String :=
  if (initialUrls base (feed 0)).isEmpty then []
  else (scrollLoop base feed limit fuel
    { urls := initialUrls base (feed 0), prevCount := 0, attempts := 0, page := 0 }).urls

/-- Specification-side pairing function for one (category tab, child
container) pair: the category is kept only when its positionally paired
container yields items. -/
def pairSpec (p : Element × Element) : Option MenuCategory :=
  if (getMenuItems p.2).isEmpty then none
  else some ⟨stripTagCount (Element.text p.1), getMenuItems p.2⟩

/-- Specification-side positional menu association, written from the
spec's words: the Nth category tab corresponds to the Nth child container
under the menu root, and a skipped pair never shifts later pairs. -/
def menuPositional (cats : List Element) (root : Element) : List MenuCategory :=
  (cats.zip (Element.contents root)).filterMap pairSpec

/-- Total item count of a record's menu. -/
def itemTotal (r : Record) : Nat :=
  (r.menu.map (fun c => c.items.length)).sum

/-- Well-formedness of an accumulated entry as the pipeline produces it:
every category of a record's menu carries at least one item (enforced by
the `if menu_items:` guard of _get_menu). -/
def wfEntry : Entry → Bool
  | .record r _ => r.menu.all (fun c => !c.items.isEmpty)
  | .failure _ _ => true

/-- Convenience fixture: a leaf element carrying only text. -/
def elemText (t : String) : Element := Element.mk t [] none [] []

/-- Session fixture with no driver-side snapshot refreshes. -/
def sess0 : Session := ⟨none, none⟩

/-- Item-container fixture mirroring the repository's test HTML: name,
description, price "Rs. 500" and a quoted background-image style. -/
def li1 : Element :=
  Element.mk "" [] none
    [("h3 span[data-testid='menu-product-name']", [elemText "Test Item"]),
     ("p.product-tile__description", [elemText "Test description"]),
     ("p[data-testid='menu-product-price']", [elemText "Rs. 500"]),
     ("picture.product-tile__image div",
        [Element.mk "" [("style", "background-image: url('item-image.jpg')")] none [] []])]
    []

/-- Item-container fixture with no discoverable name. -/
def liNoName : Element :=
  Element.mk "" [] none
    [("p.product-tile__description", [elemText "Orphan description"]),
     ("p[data-testid='menu-product-price']", [elemText "Rs. 900"])]
    []

/-- Dish grid holding the two item fixtures. -/
def dishGrid : Element := Element.mk "" [] none [("li", [li1, liNoName])] []

/-- Category container fixture for menu-item extraction. -/
def sampleContainer : Element :=
  Element.mk "" [] none [("ul.dish-list-grid", [dishGrid])] []

/-- Item container with only a name (positional-pairing fixtures). -/
def liNamed (n : String) : Element :=
  Element.mk "" [] none [("h3 span[data-testid='menu-product-name']", [elemText n])] []

/-- Child container under the menu root holding one named item. -/
def contOf (n : String) : Element :=
  Element.mk "" [] none
    [("ul.dish-list-grid", [Element.mk "" [] none [("li", [liNamed n])] []])] []

/-- Menu root with three child containers, the middle one empty. -/
def menuRootW : Element :=
  Element.mk "" [] none [] [contOf "Chicken Roll", Element.mk "" [] none [] [], contOf "Beef Burger"]

/-- Restaurant-page fixture with three category tabs over `menuRootW`. -/
def soupW : Element :=
  Element.mk "" [] none
    [(catSelector, [elemText "Starters (2)", elemText "Empty (0)", elemText "Mains (3)"]),
     ("div.menu", [menuRootW])]
    []

/-- Restaurant-page fixture whose menu root has fewer children than there
are category tabs, so the indexed pairing raises inside _get_menu. -/
def soupBad : Element :=
  Element.mk "" [] none
    [(catSelector, [elemText "Drinks (2)"]), ("div.menu", [Element.mk "" [] none [] []])]
    []

/-- Empty markup fixture. -/
def emptySoup : Element := Element.mk "" [] none [] []

/-- Restaurant-page fixture whose free text contains an email address. -/
def ceSoup : Element :=
  Element.mk "Contact help@mail.com for details" [] none [] []

/-- Base URL of the pakistan domain, as __init__ derives it. -/
def base0 : String := "https://www.foodpanda.pk"

/-- Restaurant card with a relative href. -/
def cardRel : Element := Element.mk "" [("href", "/restaurant/tasty")] none [] []

/-- Listing page showing the same relative-href card twice. -/
def pageDup : Element :=
  Element.mk "" [] none [("a[data-testid='restaurant-card']", [cardRel, cardRel])] []

/-- Listing page showing two distinct absolute-href cards. -/
def pageTwo : Element :=
  Element.mk "" [] none
    [("a[data-testid='restaurant-card']",
      [Element.mk "" [("href", "https://www.foodpanda.pk/restaurant/a")] none [] [],
       Element.mk "" [("href", "https://www.foodpanda.pk/restaurant/b")] none [] []])]
    []

/-- Listing page showing a single relative-href card. -/
def pageRel : Element :=
  Element.mk "" [] none [("a[data-testid='restaurant-card']", [cardRel])] []

/-- Stable feed fixtures: every scroll shows the same page. -/
def feedDup : Nat → Element := fun _ => pageDup

/-- Stable feed with two distinct absolute-href cards. -/
def feedTwo : Nat → Element := fun _ => pageTwo

/-- Stable feed with one relative-href card. -/
def feedRel : Nat → Element := fun _ => pageRel

/-- The joined form of the relative href on `base0`. -/
def urlF : String := "https://www.foodpanda.pk/restaurant/tasty"

/-- A record with no menu (accumulator fixtures). -/
def recNoMenu : Record :=
  { name := "Zero Menu Diner", image := "", state := "punjab", city := "Lahore"
    country_code := "PK", postal_code := "54000", email := ""
    cuisines := ["Italian", "Pizza"], latitude := "", longitude := ""
    price_range := "$$$", phone := "", menu := [], address := "" }

/-- A record with one category of two items (accumulator fixtures). -/
def recWithMenu : Record :=
  { recNoMenu with
    name := "Full Menu Diner"
    menu := [⟨"Starters", [⟨"Soup", "warm", "300", ""⟩, ⟨"Salad", "", "450", ""⟩]⟩] }

/-- The spec's end-to-end accumulator scenario: two successful records
around one error placeholder. -/
def data3 : List Entry :=
  [Entry.record recWithMenu "https://x/r1",
   Entry.failure "https://x/r2" "navigation",
   Entry.record recNoMenu "https://x/r3"]

/-- Accumulated sequence holding only an error placeholder (its flattened
form is empty). -/
def dataErr : List Entry := [Entry.failure "https://x/r2" "navigation"]

/-- Accumulated sequence with one menu-less record (its flattened form is
nonempty). -/
def dataOk : List Entry := [Entry.record recNoMenu "https://x/r3"]

/-- Previous file states differing only in the tabular file. -/
def fsA : FileState := ⟨[], [basicOf recNoMenu "https://x/old"]⟩

/-- Previous file state with an empty tabular file. -/
def fsB : FileState := ⟨[], []⟩

/-- C1: get_restaurant_urls is claimed to return no two entries for the
same entity (same href). On a listing page showing the same relative-href
card twice, the raw href is compared against the list of already-joined
URLs and never matches, so the joined URL is appended twice and the
function returns a duplicated list. -/
theorem C1_duplicate_reference :
    getRestaurantUrls base0 feedDup (some 2) 50 = [urlF, urlF] := by
  decide

/-- C2: get_restaurant_urls is claimed to truncate to exactly the limit.
When the initial extraction already exceeds the limit, the scroll loop
(which contains the only truncation) never runs: with limit 1 and two
cards visible, the function returns both URLs. -/
theorem C2_limit_overshoot :
    getRestaurantUrls base0 feedTwo (some 1) 50 =
      ["https://www.foodpanda.pk/restaurant/a", "https://www.foodpanda.pk/restaurant/b"]
    ∧ (getRestaurantUrls base0 feedTwo (some 1) 50).length = 2 := by
  exact ⟨by decide, by decide⟩

/-- C10: a successfully extracted record carries the same constant
administrative and contact fields regardless of page content, so any two
runs agree on them. -/
theorem C10_constant_admin_fields :
    ∀ (sess : Session) (soup : Element),
      (extractRestaurantDetails sess soup).state = "punjab"
      ∧ (extractRestaurantDetails sess soup).city = "Lahore"
      ∧ (extractRestaurantDetails sess soup).country_code = "PK"
      ∧ (extractRestaurantDetails sess soup).postal_code = "54000"
      ∧ (extractRestaurantDetails sess soup).price_range = "$$$"
      ∧ (extractRestaurantDetails sess soup).email = ""
      ∧ (extractRestaurantDetails sess soup).phone = "" := by
  intro sess soup
  exact ⟨rfl, rfl, rfl, rfl, rfl, rfl, rfl⟩

/-- C3 counterexample: on a page whose free text contains an email
address, the regex-based helper _get_email extracts it, yet the emitted
record's email field is the empty string — the record does not come from
the regex extraction the claim describes. -/
theorem C3_counterexample :
    getEmail ceSoup = "help@mail.com"
    ∧ (extractRestaurantDetails sess0 ceSoup).email = "" := by
  exact ⟨by decide, rfl⟩

/-- C3 amended: the postal_code, email and phone fields of a successfully
extracted record are the constants "54000", "" and "" regardless of page
content; the regex-based helpers exist in the source but are not invoked
by extract_restaurant_details. -/
theorem C3_constant_contact_fields :
    ∀ (sess : Session) (soup : Element),
      (extractRestaurantDetails sess soup).postal_code = "54000"
      ∧ (extractRestaurantDetails sess soup).email = ""
      ∧ (extractRestaurantDetails sess soup).phone = "" := by
  intro sess soup
  exact ⟨rfl, rfl, rfl⟩

/-- C5 counterexample: flushing an accumulated sequence whose flattened
form is empty (a lone error placeholder) leaves the tabular file exactly
as it was, so the resulting file state is not a pure function of the
accumulated sequence alone. -/
theorem C5_counterexample :
    flushFiles dataErr fsA ≠ flushFiles dataErr fsB := by
  decide

/-- C5 amended: flush always rewrites the structured file with a pure
function of the accumulated sequence and is idempotent; the tabular file
is fully overwritten (independently of its previous contents) only when
the flattened form is nonempty. -/
theorem C5_flush_overwrite :
    ∀ (data : List Entry) (fs : FileState),
      flushFiles data (flushFiles data fs) = flushFiles data fs
      ∧ (flushFiles data fs).jsonFile = jsonOut data
      ∧ (saveRows data ≠ [] → ∀ fs2, flushFiles data fs = flushFiles data fs2) := by
  intro data fs
  refine ⟨?_, rfl, ?_⟩
  · unfold flushFiles
    by_cases h : (saveRows data).isEmpty
    · simp [h]
    · simp [h]
  · intro hne fs2
    have h : (saveRows data).isEmpty = false := by
      cases hsr : saveRows data with
      | nil => exact absurd hsr hne
      | cons a as => rfl
    unfold flushFiles
    rw [h]
    simp

/-- C5 witness: a flush of a sequence with a nonempty flattened form is
independent of the previous file state. -/
theorem C5_flush_overwrite_witness :
    flushFiles dataOk fsA = flushFiles dataOk fsB := by
  exact (C5_flush_overwrite dataOk fsA).2.2 (by decide) fsB

/-- Appending through a fold is mapping: helper for the flattening
lemmas. -/
theorem foldl_snoc_map {α β : Type} (g : α → β) :
    ∀ (l : List α) (acc : List β),
      l.foldl (fun a x => a ++ [g x]) acc = acc ++ l.map g := by
  intro l
  induction l with
  | nil => intro acc; simp
  | cons x xs ih => intro acc; simp [ih]

/-- The nested category/item fold of _save_data flattens to the mapped
row lists. -/
theorem catsFold_rows (b : Row) :
    ∀ (cats : List MenuCategory) (acc : List Row),
      cats.foldl
          (fun a cat => cat.items.foldl
            (fun a2 it => a2 ++ [itemRow b cat.category it]) a) acc
        = acc ++ (cats.map (fun cat => cat.items.map (itemRow b cat.category))).flatten := by
  intro cats
  induction cats with
  | nil => intro acc; simp
  | cons c cs ih =>
    intro acc
    simp only [List.foldl_cons, List.map_cons, List.flatten_cons]
    rw [foldl_snoc_map (itemRow b c.category) c.items acc, ih]
    simp [List.append_assoc]

/-- The flattening loop of _save_data equals the concatenation of the
per-entry row lists, in sequence order. -/
theorem saveRows_flat :
    ∀ (data : List Entry) (acc : List Row),
      data.foldl saveStep acc = acc ++ (data.map entityRows).flatten := by
  intro data
  induction data with
  | nil => intro acc; simp
  | cons e es ih =>
    intro acc
    cases e with
    | failure u m => simp [saveStep, entityRows, ih]
    | record r url =>
      by_cases h : r.menu.isEmpty
      · simp [saveStep, entityRows, h, ih]
      · simp only [List.foldl_cons, saveStep, h, List.map_cons, List.flatten_cons, entityRows,
          Bool.false_eq_true, if_false]
        rw [catsFold_rows, ih]
        simp [List.append_assoc]

/-- C4: at flush, the flattened tabular output is the concatenation of
one row per menu item of each non-error entity in discovery order, an
error placeholder contributes no tabular row, a well-formed entity with
zero menu items contributes exactly its single menu-less row, and the
structured output keeps one entry per accumulated entity. -/
theorem C4_flatten_rows :
    ∀ (data : List Entry),
      (∀ e ∈ data, wfEntry e = true) →
      saveRows data = (data.map entityRows).flatten
      ∧ (∀ u m, entityRows (Entry.failure u m) = [])
      ∧ (∀ r url, Entry.record r url ∈ data → itemTotal r = 0 →
          entityRows (Entry.record r url) = [basicOf r url])
      ∧ (∀ r url, 0 < itemTotal r →
          (entityRows (Entry.record r url)).length = itemTotal r)
      ∧ jsonOut data = data := by
  intro data hwf
  refine ⟨?_, ?_, ?_, ?_, rfl⟩
  · have h := saveRows_flat data []
    simpa [saveRows] using h
  · intro u m; rfl
  · intro r url hmem h0
    cases hm : r.menu with
    | nil => simp [entityRows, hm]
    | cons c cs =>
      exfalso
      have hall := hwf _ hmem
      simp only [wfEntry, hm, List.all_cons, Bool.and_eq_true] at hall
      have h1 : c.items ≠ [] := by
        have := hall.1
        simp only [Bool.not_eq_eq_eq_not, Bool.not_true] at this
        intro hnil
        rw [hnil] at this
        simp at this
      simp only [itemTotal, hm, List.map_cons, List.sum_cons] at h0
      have h2 : c.items.length = 0 := by omega
      exact h1 (List.length_eq_zero.mp h2)
  · intro r url hpos
    have hne : r.menu.isEmpty = false := by
      cases hm : r.menu with
      | nil =>
        exfalso
        simp [itemTotal, hm] at hpos
      | cons c cs => rfl
    simp only [entityRows, hne, Bool.false_eq_true, if_false]
    rw [List.length_flatten]
    simp only [itemTotal, List.map_map]
    have hfun :
        (List.length ∘ fun cat : MenuCategory =>
          List.map (itemRow (basicOf r url) cat.category) cat.items)
        = (fun c : MenuCategory => c.items.length) := by
      funext cat
      simp
    rw [hfun]

/-- C4 witness: the spec's end-to-end scenario — two successful records
around one error placeholder flatten to the two item rows of the first
record followed by the single menu-less row of the third entity, with all
three entities kept in the structured output. -/
theorem C4_flatten_rows_witness :
    (saveRows data3 = (data3.map entityRows).flatten
      ∧ (∀ u m, entityRows (Entry.failure u m) = [])
      ∧ (∀ r url, Entry.record r url ∈ data3 → itemTotal r = 0 →
          entityRows (Entry.record r url) = [basicOf r url])
      ∧ (∀ r url, 0 < itemTotal r →
          (entityRows (Entry.record r url)).length = itemTotal r)
      ∧ jsonOut data3 = data3)
    ∧ saveRows data3 =
      [itemRow (basicOf recWithMenu "https://x/r1") "Starters" ⟨"Soup", "warm", "300", ""⟩,
       itemRow (basicOf recWithMenu "https://x/r1") "Starters" ⟨"Salad", "", "450", ""⟩,
       basicOf recNoMenu "https://x/r3"] := by
  exact ⟨C4_flatten_rows data3 (by decide), by decide⟩

/-- Items accumulated by the li loop keep nonempty names: the name guard
is checked before every append. -/
theorem liFold_names :
    ∀ (lis : List Element) (acc : List MenuItem),
      (∀ x ∈ acc, x.name ≠ "") → ∀ x ∈ lis.foldl liStep acc, x.name ≠ "" := by
  intro lis
  induction lis with
  | nil => intro acc hacc; simpa using hacc
  | cons li rest ih =>
    intro acc hacc
    simp only [List.foldl_cons]
    apply ih
    intro x hx
    unfold liStep at hx
    by_cases h : itemName li = ""
    · rw [if_pos h] at hx
      exact hacc x hx
    · rw [if_neg h] at hx
      rcases List.mem_append.mp hx with h1 | h2
      · exact hacc x h1
      · have hx2 : x = itemOf li := by simpa using h2
        rw [hx2]
        exact h

/-- Items accumulated by the grid loop keep nonempty names. -/
theorem gridFold_names :
    ∀ (grids : List Element) (acc : List MenuItem),
      (∀ x ∈ acc, x.name ≠ "") → ∀ x ∈ grids.foldl gridStep acc, x.name ≠ "" := by
  intro grids
  induction grids with
  | nil => intro acc hacc; simpa using hacc
  | cons g rest ih =>
    intro acc hacc
    simp only [List.foldl_cons]
    exact ih _ (liFold_names _ _ hacc)

/-- C6: an item container with a name, a description, price text
"Rs. 500" and a quoted background-image style yields exactly the item
with price "500" and the parsed image URL, a nameless sibling is dropped,
and in general every emitted menu item has a nonempty name. -/
theorem C6_menu_items :
    getMenuItems sampleContainer =
      [⟨"Test Item", "Test description", "500", "item-image.jpg"⟩]
    ∧ (∀ (c : Element) (it : MenuItem), it ∈ getMenuItems c → it.name ≠ "") := by
  constructor
  · decide
  · intro c it hit
    exact gridFold_names _ [] (by simp) it hit

/-- C6 witness: the concretely extracted sample item indeed has a
nonempty name. -/
theorem C6_menu_items_witness :
    (⟨"Test Item", "Test description", "500", "item-image.jpg"⟩ : MenuItem).name ≠ "" := by
  exact C6_menu_items.2 sampleContainer _ (by decide)

/-- C8: extractors are total at their interface — the catch-all handler
of _get_menu converts any internal failure (the indexed container lookup)
to the empty default and is the identity on success, and the text and
cuisine extractors return their empty defaults on selector misses. -/
theorem C8_extractors_total :
    ∀ (sess : Session) (soup : Element),
      (∀ msg, getMenuBody sess soup = Except.error msg → getMenu sess soup = [])
      ∧ (∀ m, getMenuBody sess soup = Except.ok m → getMenu sess soup = m)
      ∧ (∀ sel, Element.selOne soup sel = none → getText soup sel = "")
      ∧ (Element.selAll soup "ul.main-info__characteristics span" = [] →
          getCuisines soup = []) := by
  intro sess soup
  refine ⟨?_, ?_, ?_, ?_⟩
  · intro msg h
    unfold getMenu
    rw [h]
  · intro m h
    unfold getMenu
    rw [h]
  · intro sel h
    unfold getText
    rw [h]
  · intro h
    unfold getCuisines
    rw [h]
    rfl

/-- C8 witness: on a page whose category tabs outnumber the menu root's
children the menu body fails with an index error and the exposed
extractor returns the empty menu; the text extractor defaults on empty
markup. -/
theorem C8_extractors_total_witness :
    getMenu sess0 soupBad = [] ∧ getText emptySoup "h1" = "" := by
  exact ⟨(C8_extractors_total sess0 soupBad).1 "IndexError" (by rfl),
         (C8_extractors_total sess0 emptySoup).2.2.1 "h1" (by rfl)⟩

/-- The indexed category loop of _get_menu computes the positional
zip-based pairing whenever every index is in range: it pairs the category
at position i with the menu root's child at position i, skipping (without
shifting) the pairs whose container yields no items. -/
theorem menuLoop_zip :
    ∀ (soup2 root : Element),
      Element.selOne soup2 "div.menu" = some root →
      ∀ (cs : List Element) (i : Nat) (acc : List MenuCategory),
        i + cs.length ≤ (Element.contents root).length →
        menuLoop soup2 cs i acc =
          Except.ok (acc ++ (cs.zip ((Element.contents root).drop i)).filterMap pairSpec) := by
  intro soup2 root hsel cs
  induction cs with
  | nil =>
    intro i acc hle
    simp [menuLoop]
  | cons c rest ih =>
    intro i acc hle
    have hi : i < (Element.contents root).length := by
      simp only [List.length_cons] at hle
      omega
    have hget : (Element.contents root).get? i =
        some ((Element.contents root).get ⟨i, hi⟩) := List.get?_eq_get hi
    have hdrop : (Element.contents root).drop i =
        (Element.contents root).get ⟨i, hi⟩ :: (Element.contents root).drop (i + 1) := by
      simpa using List.drop_eq_getElem_cons hi
    simp only [menuLoop, hsel, hget]
    rw [hdrop]
    simp only [List.zip_cons_cons, List.filterMap_cons]
    by_cases hempty : (getMenuItems ((Element.contents root).get ⟨i, hi⟩)).isEmpty
    · rw [if_pos hempty,
        ih (i + 1) acc (by simp only [List.length_cons] at hle; omega)]
      have hps : pairSpec (c, (Element.contents root).get ⟨i, hi⟩) = none := by
        unfold pairSpec
        rw [if_pos hempty]
      rw [hps]
    · rw [if_neg hempty,
        ih (i + 1) _ (by simp only [List.length_cons] at hle; omega)]
      have hps : pairSpec (c, (Element.contents root).get ⟨i, hi⟩) =
          some ⟨stripTagCount (Element.text c),
            getMenuItems ((Element.contents root).get ⟨i, hi⟩)⟩ := by
        unfold pairSpec
        rw [if_neg hempty]
      rw [hps]
      simp [List.append_assoc]

/-- C7: category-to-item association is positional — whenever the menu
root exists and has at least as many children as there are category tabs,
_get_menu returns exactly the zip-based positional pairing, in which a
pair skipped for yielding no items never shifts the pairing of the
remaining categories. -/
theorem C7_positional_pairing :
    ∀ (sess : Session) (soup root : Element),
      Element.selOne (sess.menuScrollSoup.getD soup) "div.menu" = some root →
      (Element.selAll (sess.menuScrollSoup.getD soup) catSelector).length ≤
        (Element.contents root).length →
      getMenu sess soup =
        menuPositional (Element.selAll (sess.menuScrollSoup.getD soup) catSelector) root := by
  intro sess soup root hsel hlen
  unfold getMenu getMenuBody
  rw [menuLoop_zip _ root hsel _ 0 [] (by simpa using hlen)]
  simp [menuPositional]

/-- C7 witness: on the three-category fixture whose middle container
yields no items, the extractor equals the positional pairing and the
third category stays paired with the third container. -/
theorem C7_positional_pairing_witness :
    getMenu sess0 soupW = menuPositional (Element.selAll soupW catSelector) menuRootW
    ∧ getMenu sess0 soupW =
      [⟨"Starters", [⟨"Chicken Roll", "", "", ""⟩]⟩,
       ⟨"Mains", [⟨"Beef Burger", "", "", ""⟩]⟩] := by
  constructor
  · exact C7_positional_pairing sess0 soupW menuRootW (by rfl) (by decide)
  · decide

/-- The raw relative href never occurs among copies of its joined form,
so the membership test of the collection loop never blocks it. -/
theorem rawHref_not_mem_replicate :
    ∀ (n : Nat), "/restaurant/tasty" ∉ List.replicate n urlF := by
  intro n h
  have heq := List.eq_of_mem_replicate h
  exact absurd heq (by decide)

/-- One in-loop extraction pass over the stable single-card page appends
one more copy of the joined URL to a list of copies: the raw href is
compared against joined URLs, so it is treated as new every time. -/
theorem collect_rel :
    ∀ (n : Nat),
      extractAllSelectors base0 pageRel (List.replicate n urlF) =
        List.replicate (n + 1) urlF := by
  intro n
  unfold extractAllSelectors restaurantSelectors
  simp only [List.foldl_cons, List.foldl_nil]
  have h2 : Element.selAll pageRel "a[href*='/restaurant/']" = [] := rfl
  have h3 : Element.selAll pageRel "a[class*='restaurant']" = [] := rfl
  have h4 : Element.selAll pageRel "a[class*='vendor']" = [] := rfl
  have hnil : ∀ (a : List String), collectCards base0 [] a = a := by
    intro a
    rfl
  rw [h2, h3, h4]
  rw [show Element.selAll pageRel "a[data-testid='restaurant-card']" = [cardRel] from rfl]
  rw [show (collectCards base0 [cardRel] (List.replicate n urlF)) =
      List.replicate (n + 1) urlF from ?_]
  · rw [hnil, hnil, hnil]
  · unfold collectCards
    simp only [List.foldl_cons, List.foldl_nil]
    rw [show Element.attr cardRel "href" = some "/restaurant/tasty" from rfl]
    dsimp only
    rw [if_pos (And.intro (by decide) (rawHref_not_mem_replicate n))]
    rw [show urljoin base0 "/restaurant/tasty" = urlF from by decide]
    rw [← List.replicate_succ' (n := n)]

/-- On the stable relative-href feed with no limit, every unit of fuel
executes one more body iteration: after any number of iterations the url
list has grown by exactly that number of joined copies, the no-growth
counter is still zero, and the loop condition still holds. -/
theorem scrollLoop_rel :
    ∀ (fuel n m p : Nat), m ≤ n → 1 ≤ n →
      scrollLoop base0 feedRel none fuel ⟨List.replicate n urlF, m, 0, p⟩ =
        ⟨List.replicate (n + fuel) urlF,
          if fuel = 0 then m else n + fuel, 0, p + fuel⟩ := by
  intro fuel
  induction fuel with
  | zero =>
    intro n m p hm hn
    simp [scrollLoop]
  | succ f ih =>
    intro n m p hm hn
    have hcond : loopCond none ⟨List.replicate n urlF, m, 0, p⟩ = true := by
      simp [loopCond]
    have hiter : loopIter base0 feedRel none ⟨List.replicate n urlF, m, 0, p⟩ =
        (⟨List.replicate (n + 1) urlF, n + 1, 0, p + 1⟩, false) := by
      unfold loopIter
      rw [show feedRel p = pageRel from rfl]
      rw [collect_rel n]
      simp only [List.length_replicate]
      have hne : ¬ (n + 1 = m) := by omega
      simp [hne]
    simp only [scrollLoop, hcond, if_pos, hiter]
    rw [ih (n + 1) (n + 1) (p + 1) (le_refl _) (by omega)]
    have h1 : n + 1 + f = n + (f + 1) := by omega
    have h2 : p + 1 + f = p + (f + 1) := by omega
    rw [h1, h2]
    by_cases hf : f = 0
    · subst hf
      simp
    · simp [hf]

/-- C9: the scroll loop does not terminate on a stable feed showing one
relative-href card with no limit set. The claim expects the loop to stop
within the 20-iteration no-growth bound once the feed stops producing new
references; instead each iteration re-adds the same reference (the raw
href is never found among the joined URLs), the discovered count grows
forever, the no-growth counter stays zero, and the while-condition holds
after every iteration count. The third conjunct ties the loop's start
state to the real initial extraction. -/
theorem C9_nontermination :
    ∀ (fuel : Nat),
      (scrollLoop base0 feedRel none fuel ⟨[urlF], 0, 0, 0⟩).urls =
        List.replicate (1 + fuel) urlF
      ∧ loopCond none (scrollLoop base0 feedRel none fuel ⟨[urlF], 0, 0, 0⟩) = true
      ∧ initialUrls base0 (feedRel 0) = [urlF] := by
  intro fuel
  have h := scrollLoop_rel fuel 1 0 0 (by omega) (by omega)
  rw [show (List.replicate 1 urlF) = [urlF] from rfl] at h
  refine ⟨?_, ?_, by decide⟩
  · rw [h]
  · rw [h]
    simp [loopCond]

/-- Invariant of the category loop: every category it emits carries a
nonempty item list (the `if menu_items:` guard), which justifies the
well-formedness hypothesis used for the accumulator's flattening. -/
theorem menuLoop_items_nonempty :
    ∀ (soup2 : Element) (cs : List Element) (i : Nat)
      (acc res : List MenuCategory),
      (∀ c ∈ acc, c.items ≠ []) →
      menuLoop soup2 cs i acc = Except.ok res →
      ∀ c ∈ res, c.items ≠ [] := by
  intro soup2 cs
  induction cs with
  | nil =>
    intro i acc res hacc h c hc
    simp only [menuLoop, Except.ok.injEq] at h
    subst h
    exact hacc c hc
  | cons ct rest ih =>
    intro i acc res hacc h c hc
    simp only [menuLoop] at h
    cases hsel : Element.selOne soup2 "div.menu" with
    | none =>
      rw [hsel] at h
      exact ih (i + 1) acc res hacc h c hc
    | some root =>
      rw [hsel] at h
      dsimp only at h
      cases hget : (Element.contents root).get? i with
      | none =>
        rw [hget] at h
        exact absurd h (by simp)
      | some child =>
        rw [hget] at h
        refine ih (i + 1) _ res ?_ h c hc
        by_cases hempty : (getMenuItems child).isEmpty
        · rw [if_pos hempty]
          exact hacc
        · rw [if_neg hempty]
          intro d hd
          rcases List.mem_append.mp hd with h1 | h2
          · exact hacc d h1
          · have hd2 : d = ⟨stripTagCount (Element.text ct), getMenuItems child⟩ := by
              simpa using h2
            rw [hd2]
            intro hnil
            rw [List.isEmpty_iff] at hempty
            exact hempty hnil

/-- Every category of an extracted menu has at least one item. -/
theorem getMenu_items_nonempty :
    ∀ (sess : Session) (soup : Element) (c : MenuCategory),
      c ∈ getMenu sess soup → c.items ≠ [] := by
  intro sess soup c hc
  unfold getMenu at hc
  cases hb : getMenuBody sess soup with
  | ok m =>
    rw [hb] at hc
    unfold getMenuBody at hb
    exact menuLoop_items_nonempty _ _ 0 [] m (by simp) hb c hc
  | error e =>
    rw [hb] at hc
    simp at hc
